import Mathlib

/-!
Verification of the vid2vibes audio-to-haptic pipeline.

Shallow embedding of the repository's JavaScript sources:
  - src/scripts/audioAnalyzer.js (worker functions detectOnsets, estimateBPM and
    the volume-curve pass),
  - src/patternGenerator.js (PatternGenerator.generate, createResumePattern),
  - src/scripts/player.js (Player.checkPatternSync, Player.sendPatternAtCurrentTime).

Modelling conventions:
  - JavaScript numbers are modelled as exact rationals (ℚ) wherever the code only
    adds, multiplies, divides, floors and rounds; the audio front-end, which takes
    square roots (RMS energies), is modelled over ℝ.
  - Math.floor is Int.floor; Math.round rounds half toward +infinity, modelled by
    jsRound below; Math.round(x * 1000) / 1000 is jsRound3, and so on.
  - JavaScript's nullish coalescing (x ?? y) on optional numbers is Option.getD;
    its truthy-or (x || y), which also replaces 0, is jsOrQ below.
-/

/-- JavaScript Math.round: rounds half toward positive infinity. -/
def jsRound (q : ℚ) : ℤ := ⌊q + 1/2⌋

/-- JavaScript Math.round(x * 100) / 100 (round to 2 decimals). -/
def jsRound2 (q : ℚ) : ℚ := (jsRound (q * 100) : ℚ) / 100

/-- JavaScript Math.round(x * 1000) / 1000 (round to 3 decimals). -/
def jsRound3 (q : ℚ) : ℚ := (jsRound (q * 1000) : ℚ) / 1000

/-- JavaScript `x || y` on an optional number: `y` when `x` is absent or 0
(0 is falsy in JavaScript), else the value of `x`. -/
def jsOrQ (x : Option ℚ) (y : ℚ) : ℚ :=
  match x with
  | some v => if v = 0 then y else v
  | none => y

/-- Utils.clamp from src/scripts/utils.js: Math.min(Math.max(value, min), max). -/
def clampQ (value lo hi : ℚ) : ℚ := min (max value lo) hi

namespace PatternGenerator

/-- The _meta block attached to each generated pattern chunk
(src/patternGenerator.js, generate). The source has no isResumeSlice key on a
fresh chunk (undefined, falsy); modelled as false. -/
structure PatternMeta where
  startTime : ℚ
  endTime : ℚ
  points : ℕ
  intervalMs : ℚ
  isResumeSlice : Bool := false
deriving DecidableEq

/-- A Pattern command chunk as built by PatternGenerator.generate. The constant
fields command = "Pattern" and apiVer = 1 are not repeated here; `strength` is the
semicolon-joined value string, modelled as the list of its values. -/
structure RawPattern where
  rule : String
  strength : List ℚ
  timeSec : ℚ
  meta : Option PatternMeta
deriving DecidableEq

/-- skipCommands = Math.floor(timeIntoPattern / intervalSec) of
createResumePattern, with intervalSec = _meta.intervalMs / 1000. -/
def resumeSkip (m : PatternMeta) (currentTime : ℚ) : ℤ :=
  ⌊(currentTime - m.startTime) / (m.intervalMs / 1000)⌋

/-- PatternGenerator.createResumePattern (src/patternGenerator.js): slice a chunk
to resume mid-way.  The source's `strengths.slice(skipCommands)` on the split
string is List.drop on the value list.  For a chunk with _meta the source divides
by intervalSec; the embedding (like every theorem below) is used with
0 < intervalMs, where ℚ division agrees with the source's float division. -/
def createResumePattern (pattern : RawPattern) (currentTime : ℚ) : Option RawPattern :=
  match pattern.meta with
  | none => some pattern
  | some m =>
    let intervalSec := m.intervalMs / 1000
    let timeIntoPattern := currentTime - m.startTime
    if timeIntoPattern ≤ 0 then some pattern
    else
      let skipCommands : ℤ := resumeSkip m currentTime
      if (m.points : ℤ) ≤ skipCommands then none
      else
        let remainingStrengths := pattern.strength.drop skipCommands.toNat
        if remainingStrengths.length = 0 then none
        else
          let newDuration := jsRound3 ((remainingStrengths.length : ℚ) * intervalSec)
          some { pattern with
                 strength := remainingStrengths
                 timeSec := newDuration
                 meta := some { m with
                                startTime := currentTime
                                points := remainingStrengths.length
                                isResumeSlice := true } }

/-- One entry of analysisResult.volumeData as read by PatternGenerator.generate:
only .time and .normalized are consulted. -/
structure VolumeEntry where
  time : ℚ
  normalized : ℚ
deriving DecidableEq

/-- The fields of the analysis result that PatternGenerator.generate destructures
(duration, bpm, beatInterval, volumeData). -/
structure AnalysisResult where
  duration : ℚ
  bpm : ℤ
  beatInterval : ℚ
  volumeData : List VolumeEntry
deriving DecidableEq

/-- The settings object passed to PatternGenerator.generate, after the source's
destructuring defaults have been applied. -/
structure GenSettings where
  deviceType : String
  minIntensity : ℚ
  maxIntensity : ℚ
  onBeatBoost : ℚ
  breakIntensity : ℚ
deriving DecidableEq

/-- PatternGenerator.deviceFeatures (src/patternGenerator.js). -/
def deviceFeatures : List (String × String) :=
  [("generic-vibe", "v"), ("max2", "v,p"), ("nora", "v,r"), ("gush2", "o"), ("solace", "t")]

/-- this.deviceFeatures[deviceType] || 'v' (none of the table's values is falsy). -/
def featureOf (deviceType : String) : String :=
  (deviceFeatures.lookup deviceType).getD "v"

/-- The volume lookup inside generate's per-step loop:
volIdx = volumeData.findIndex(v => v.time >= t);
vol = volIdx >= 0 ? volumeData[Math.max(0, volIdx - 1)]?.normalized || 0.5 : 0.5.
A normalized level of exactly 0 is falsy in JavaScript, so `|| 0.5` replaces it
by 0.5; ℕ subtraction `volIdx - 1` is the source's Math.max(0, volIdx - 1). -/
def volumeAt (volumeData : List VolumeEntry) (t : ℚ) : ℚ :=
  match volumeData.findIdx? (fun v => t ≤ v.time) with
  | some volIdx =>
    match volumeData.get? (volIdx - 1) with
    | some p => if p.normalized = 0 then 1/2 else p.normalized
    | none => 1/2
  | none => 1/2

/-- The beat grid built by generate: for (t = 0; t < duration; t += beatInterval).
The source's loop never terminates when beatInterval ≤ 0 (t never reaches
duration); that case is modelled as an empty grid and excluded by hypotheses
where it matters.  For 0 < beatInterval the beats are k * beatInterval for every
k with k * beatInterval < duration, i.e. k < ⌈duration / beatInterval⌉. -/
def mkBeats (beatInterval duration : ℚ) : List ℚ :=
  if 0 < beatInterval then
    (List.range (⌈duration / beatInterval⌉.toNat)).map (fun k => (k : ℚ) * beatInterval)
  else []

/-- The body of generate's per-step loop: the clamped intensity for one 100 ms
step.  It follows the source line by line (beat lookup with break, jsRound for
Math.round, Utils.clamp at the end).  The source's `if (t >= beats[b])
beatIndex = b; else break` over the ascending beat list leaves
beatIndex = (takeWhile (≤ t)).length - 1, with the ℕ subtraction matching the
source's beatIndex = 0 initialisation. -/
def strengthAt (analysisResult : AnalysisResult) (settings : GenSettings)
    (step : ℕ) : ℚ :=
  let intervalSec : ℚ := 1/10
  let stepsPerBeat : ℤ := jsRound (analysisResult.beatInterval / intervalSec)
  let onSteps : ℤ := max 1 (jsRound ((stepsPerBeat : ℚ) * (3/4)))
  let beats := mkBeats analysisResult.beatInterval analysisResult.duration
  let t : ℚ := (step : ℚ) * intervalSec
  let beatIndex : ℕ := (beats.takeWhile (fun b => b ≤ t)).length - 1
  let beatStartTime : ℚ := beats.getD beatIndex 0
  let timeIntoBeat := t - beatStartTime
  let stepIntoBeat : ℤ := jsRound (timeIntoBeat / intervalSec)
  let isOnBeat := stepIntoBeat < onSteps
  let vol := volumeAt analysisResult.volumeData t
  let intensity : ℚ :=
    if isOnBeat then min 1 (vol * settings.onBeatBoost) else settings.breakIntensity
  let range := settings.maxIntensity - settings.minIntensity
  let mappedIntensity : ℤ := jsRound (settings.minIntensity + intensity * range)
  clampQ (mappedIntensity : ℚ) settings.minIntensity settings.maxIntensity

/-- The full allStrengths array: one value per step below
totalSteps = Math.ceil(duration / intervalSec).  (The source computes
stepsPerBeat, onSteps and the beat grid once before the loop; strengthAt
recomputes the same pure values per step.) -/
def computeAllStrengths (analysisResult : AnalysisResult) (settings : GenSettings) :
    List ℚ :=
  (List.range (⌈analysisResult.duration / (1/10 : ℚ)⌉.toNat)).map
    (strengthAt analysisResult settings)

/-- The chunking while-loop of PatternGenerator.generate: idx walks allStrengths
in slices of at most 50 values; each chunk records its rule string, duration and
_meta.  idx is the absolute index of the chunk's first value. -/
def buildPatterns (featureStr : String) (idx : ℕ) (xs : List ℚ) : List RawPattern :=
  if xs = [] then []
  else
    let chunk := xs.take 50
    let patternStartTime : ℚ := (idx : ℚ) * (1/10)
    let patternDuration := jsRound3 ((chunk.length : ℚ) * (1/10))
    { rule := "V:1;F:" ++ featureStr ++ ";S:100#"
      strength := chunk
      timeSec := patternDuration
      meta := some { startTime := jsRound2 patternStartTime
                     endTime := jsRound2 (patternStartTime + patternDuration)
                     points := chunk.length
                     intervalMs := 100 } } ::
      buildPatterns featureStr (idx + chunk.length) (xs.drop 50)
termination_by xs.length
decreasing_by
  simp only [List.length_drop]
  have : xs.length ≠ 0 := by simpa [List.length_eq_zero] using ‹¬xs = []›
  omega

/-- The summary document PatternGenerator.generate returns (the fields the claims
touch; the settings echo and display strings carry no logic). -/
structure GenResult where
  device : String
  totalDuration : ℚ
  bpm : ℤ
  beatInterval : ℚ
  patternCount : ℕ
  totalPoints : ℕ
  patterns : List RawPattern
deriving DecidableEq

/-- PatternGenerator.generate (src/patternGenerator.js). -/
def generate (analysisResult : AnalysisResult) (settings : GenSettings) : GenResult :=
  let featureStr := featureOf settings.deviceType
  let allStrengths := computeAllStrengths analysisResult settings
  let patterns := buildPatterns featureStr 0 allStrengths
  { device := settings.deviceType
    totalDuration := analysisResult.duration
    bpm := analysisResult.bpm
    beatInterval := jsRound3 analysisResult.beatInterval
    patternCount := patterns.length
    totalPoints := allStrengths.length
    patterns := patterns }

end PatternGenerator

namespace Player

open PatternGenerator

/-- One entry of item.script.patterns as produced by
PatternGenerator.convertOfficialFormat and consumed by the player: the display
string `pattern` carries no scheduling logic and is omitted. -/
structure ScriptPattern where
  time : Option ℚ
  duration : Option ℚ
  rawCommand : Option RawPattern
deriving DecidableEq

/-- startTime = p.time ?? p.rawCommand?._meta?.startTime ?? 0 (nullish chain). -/
def patStart (p : ScriptPattern) : ℚ :=
  p.time.getD (((p.rawCommand.bind RawPattern.meta).map PatternMeta.startTime).getD 0)

/-- endTime = p.rawCommand?._meta?.endTime ?? (startTime + (p.duration ||
p.rawCommand?.timeSec || 1)); the inner chain is truthy-or, so a 0 duration falls
through. -/
def patEnd (p : ScriptPattern) : ℚ :=
  ((p.rawCommand.bind RawPattern.meta).map PatternMeta.endTime).getD
    (patStart p + jsOrQ p.duration (jsOrQ (p.rawCommand.map RawPattern.timeSec) 1))

/-- The current-pattern scan of checkPatternSync: the first pattern whose
[startTime, endTime) window contains currentTime, together with the pattern that
follows it in the list (patterns[currentPatternIndex + 1], if any). -/
def findCovering (currentTime : ℚ) : List ScriptPattern →
    Option (ScriptPattern × Option ScriptPattern)
  | [] => none
  | p :: rest =>
    if patStart p ≤ currentTime ∧ currentTime < patEnd p then some (p, rest.head?)
    else findCovering currentTime rest

/-- Player.checkPatternSync (src/scripts/player.js), run on every timeupdate
event.  State in: lastPatternTime; state out: the new lastPatternTime and the
pattern handed to this.sendPattern, if any (sendPattern transmits
pattern.rawCommand unmodified).  The isPlaying flag stands for the early returns
(no script / not scripted / not loaded / not playing).  PRE_SEND_MS = 0.2,
and the new-window test is Math.abs(lastPatternTime - patternStartTime) >= 0.05. -/
def checkPatternSync (isPlaying : Bool) (patterns : List ScriptPattern)
    (lastPatternTime currentTime : ℚ) : ℚ × Option ScriptPattern :=
  if isPlaying then
    match findCovering currentTime patterns with
    | none => (lastPatternTime, none)
    | some (currentPattern, nextOpt) =>
      let patternStartTime := patStart currentPattern
      let patternEndTime := patEnd currentPattern
      let timeUntilEnd := patternEndTime - currentTime
      let normalSend : ℚ × Option ScriptPattern :=
        if 1/20 ≤ |lastPatternTime - patternStartTime| then
          (patternStartTime, some currentPattern)
        else (lastPatternTime, none)
      match nextOpt with
      | some nextPattern =>
        if timeUntilEnd ≤ 1/5 ∧ 0 < timeUntilEnd then
          if lastPatternTime ≠ patStart nextPattern then
            (patStart nextPattern, some nextPattern)
          else normalSend
        else normalSend
      | none => normalSend
  else (lastPatternTime, none)

/-- Player.sendPatternAtCurrentTime (src/scripts/player.js): on play start, find
the pattern covering currentTime and transmit its resume-slice (the source also
requires a nonempty strength string, and only transmits while connected; returned
here is the sliced raw command handed to LovenseApi.sendPattern, if any). -/
def sendPatternAtCurrentTime (patterns : List ScriptPattern) (currentTime : ℚ) :
    Option RawPattern :=
  match patterns.find? (fun p => decide (patStart p ≤ currentTime ∧ currentTime < patEnd p)) with
  | none => none
  | some currentPattern =>
    match currentPattern.rawCommand with
    | none => none
    | some rc =>
      if rc.meta.isSome ∧ rc.strength ≠ [] then createResumePattern rc currentTime
      else none

/-- A run of consecutive timeupdate events: threads lastPatternTime through
checkPatternSync and collects the sent patterns in order. -/
def runTicks (patterns : List ScriptPattern) : ℚ → List ℚ → ℚ × List ScriptPattern
  | lastPatternTime, [] => (lastPatternTime, [])
  | lastPatternTime, t :: ts =>
    let r := checkPatternSync true patterns lastPatternTime t
    let rest := runTicks patterns r.1 ts
    (rest.1, r.2.toList ++ rest.2)

end Player

namespace AudioAnalyzer

/-- One step of the halving argument used for the two BPM-folding loops: for the
ceiling measure, halving a ratio above 1 strictly decreases it. -/
theorem ceil_half_lt {q : ℚ} (hq : 1 < q) : ⌈q / 2⌉₊ < ⌈q⌉₊ := by
  have hn : 2 ≤ ⌈q⌉₊ := Nat.lt_ceil.mpr (by exact_mod_cast hq : (1 : ℚ) < q)
  have hq' : q ≤ (⌈q⌉₊ : ℚ) := Nat.le_ceil q
  have hcast : (2 : ℚ) ≤ (⌈q⌉₊ : ℚ) := by exact_mod_cast hn
  have hstep : q / 2 ≤ ((⌈q⌉₊ - 1 : ℕ) : ℚ) := by
    push_cast [Nat.cast_sub (by omega : 1 ≤ ⌈q⌉₊)]
    nlinarith
  calc ⌈q / 2⌉₊ ≤ ⌈q⌉₊ - 1 := Nat.ceil_le.mpr hstep
    _ < ⌈q⌉₊ := by omega

/-- The loop `while (bpm < 80 && bpm > 0) bpm *= 2` of estimateBPM. -/
def foldUp (bpm : ℚ) : ℚ :=
  if h : bpm < 80 ∧ 0 < bpm then foldUp (bpm * 2) else bpm
termination_by ⌈80 / bpm⌉₊
decreasing_by
  have h80 : (1 : ℚ) < 80 / bpm := (one_lt_div h.2).mpr h.1
  have := ceil_half_lt h80
  simpa [div_div] using this

/-- The loop `while (bpm > 180) bpm /= 2` of estimateBPM. -/
def foldDown (bpm : ℚ) : ℚ :=
  if h : 180 < bpm then foldDown (bpm / 2) else bpm
termination_by ⌈bpm / 180⌉₊
decreasing_by
  have h180 : (1 : ℚ) < bpm / 180 := (one_lt_div (by norm_num)).mpr h
  have := ceil_half_lt h180
  simpa [div_div, mul_comm] using this

/-- The histogram bin of an inter-onset interval:
Math.round(interval / binSize) * binSize with binSize = 0.02. -/
def binOf (interval : ℚ) : ℚ := (jsRound (interval / (1/50)) : ℚ) * (1/50)

/-- histogram[bin] = (histogram[bin] || 0) + 1 on an insertion-ordered object:
an association list keyed by the bin value, keys in first-encounter order
(Object.entries preserves insertion order for these non-integer string keys). -/
def histAdd (h : List (ℚ × ℕ)) (bin : ℚ) : List (ℚ × ℕ) :=
  if h.any (fun e => e.1 = bin) then
    h.map (fun e => if e.1 = bin then (e.1, e.2 + 1) else e)
  else h ++ [(bin, 1)]

/-- The histogram loop of estimateBPM: only intervals in [0.25, 1.0] are binned. -/
def buildHistogram (intervals : List ℚ) : List (ℚ × ℕ) :=
  intervals.foldl
    (fun h interval =>
      if 1/4 ≤ interval ∧ interval ≤ 1 then histAdd h (binOf interval) else h)
    []

/-- The best-bin scan of estimateBPM: maxCount = 0, bestInterval = 0.5, replaced
whenever a strictly larger count is seen, in entry order. -/
def pickBest (h : List (ℚ × ℕ)) : ℚ :=
  (h.foldl (fun acc e => if acc.1 < e.2 then (e.2, e.1) else acc) ((0 : ℕ), (1/2 : ℚ))).2

/-- The folded (pre-rounding) BPM value of estimateBPM for a given onset list:
60 / bestInterval pushed into range by doubling below 80 and halving above 180.
The successive inter-onset intervals are onsets[i] - onsets[i-1]. -/
def rawBpm (onsets : List ℚ) : ℚ :=
  let intervals := (onsets.zip onsets.tail).map (fun p => p.2 - p.1)
  let bestInterval := pickBest (buildHistogram intervals)
  foldDown (foldUp (60 / bestInterval))

/-- The estimator's result: bpm is Math.round of the folded value (an integer),
beatInterval is 60 / the folded value computed before that rounding. -/
structure TempoEstimate where
  bpm : ℤ
  beatInterval : ℚ
deriving DecidableEq

/-- estimateBPM (worker code in src/scripts/audioAnalyzer.js).  `duration` is a
parameter of the source function but is never read. -/
def estimateBPM (onsets : List ℚ) (duration : ℚ) : TempoEstimate :=
  if onsets.length < 4 then { bpm := 120, beatInterval := 1/2 }
  else
    let bpm := rawBpm onsets
    { bpm := jsRound bpm, beatInterval := 60 / bpm }

section RealFrontEnd

open scoped Classical

/-- The mutable state threaded through detectOnsets' frame loop: prevEnergy,
the trailing energyHistory (at most 10 frames) and the accepted onsets.
Sample values and energies are floats, modelled over ℝ (RMS takes square roots);
onset timestamps are exact sample counts over the sample rate, kept in ℚ. -/
structure OnsetState where
  prevEnergy : ℝ
  energyHistory : List ℝ
  onsets : List ℚ

/-- The 50 ms gap guard of detectOnsets:
if (onsets.length === 0 || time - onsets[onsets.length - 1] > 0.05) onsets.push(time). -/
def acceptOnset (onsets : List ℚ) (time : ℚ) : List ℚ :=
  match onsets.getLast? with
  | none => onsets ++ [time]
  | some lastOnset => if 1/20 < time - lastOnset then onsets ++ [time] else onsets

/-- One iteration of detectOnsets' loop at frame start i: frame RMS energy,
history push/shift, moving average, the spike test
energy > avgEnergy * 1.5 && energy > prevEnergy * 1.3, and the 50 ms gap guard
(acceptOnset above). -/
noncomputable def onsetStep (channelData : List ℝ) (sampleRate frameSize : ℕ)
    (s : OnsetState) (i : ℕ) : OnsetState :=
  let energy : ℝ :=
    Real.sqrt (((List.range frameSize).map (fun j => channelData.getD (i + j) 0 ^ 2)).sum
        / (frameSize : ℝ))
  let pushed := s.energyHistory ++ [energy]
  let history := if 10 < pushed.length then pushed.tail else pushed
  let avgEnergy := history.sum / (history.length : ℝ)
  let time : ℚ := (i : ℚ) / (sampleRate : ℚ)
  let onsets :=
    if energy > avgEnergy * (3/2) ∧ energy > s.prevEnergy * (13/10) then
      acceptOnset s.onsets time
    else s.onsets
  { prevEnergy := energy, energyHistory := history, onsets := onsets }

/-- detectOnsets (worker code in src/scripts/audioAnalyzer.js).
frameSize = floor(sampleRate * 0.01) and hopSize = floor(frameSize / 2); the
loop visits i = 0, hopSize, 2 * hopSize, ... while i < channelData.length -
frameSize (ℕ subtraction matches the JS loop doing nothing on a negative bound).
For hopSize = 0 (sampleRate < 200) the source loop never terminates; modelled as
no iterations. -/
noncomputable def detectOnsets (channelData : List ℝ) (sampleRate : ℕ) : List ℚ :=
  let frameSize := sampleRate / 100
  let hopSize := frameSize / 2
  let bound := channelData.length - frameSize
  let idxs :=
    if hopSize = 0 then []
    else (List.range ((bound + hopSize - 1) / hopSize)).map (· * hopSize)
  (idxs.foldl (onsetStep channelData sampleRate frameSize) ⟨0, [], []⟩).onsets

/-- A volume point after the worker's two passes: time in seconds (exact step
count over 100), raw RMS level, normalized level. -/
structure VolumePoint where
  time : ℚ
  volume : ℝ
  normalized : ℝ

/-- The first pass of the worker's volume analysis: every 10 ms (analysisStep =
0.01), RMS over a 20 ms window (windowSize = floor(sampleRate * 0.02) samples)
truncated at the buffer end.  The loop runs for t = k * 0.01 < duration =
length / sampleRate, i.e. k < ⌈100 * duration⌉. -/
noncomputable def rawVolumePass (channelData : List ℝ) (sampleRate : ℕ) :
    List (ℚ × ℝ) :=
  let duration : ℚ := (channelData.length : ℚ) / (sampleRate : ℚ)
  let windowSize := sampleRate / 50
  (List.range (⌈duration / (1/100)⌉.toNat)).map (fun k =>
    let t : ℚ := (k : ℚ) / 100
    let startSample := (⌊t * (sampleRate : ℚ)⌋).toNat
    let endSample := min (startSample + windowSize) channelData.length
    let sum := (((List.range (endSample - startSample)).map
        (fun j => channelData.getD (startSample + j) 0 ^ 2)).sum : ℝ)
    (t, Real.sqrt (sum / ((endSample - startSample : ℕ) : ℝ))))

/-- The second pass: maxVolume = Math.max(...volumes); divide by it when it is
positive, else set every normalized level to 0.  For the empty list the source's
Math.max is -Infinity, which also fails the > 0 test; both branches map the
empty list to itself. -/
noncomputable def normalizePass (raw : List (ℚ × ℝ)) : List VolumePoint :=
  match (raw.map Prod.snd).maximum with
  | some maxVolume =>
    if 0 < maxVolume then raw.map (fun p => ⟨p.1, p.2, p.2 / maxVolume⟩)
    else raw.map (fun p => ⟨p.1, p.2, 0⟩)
  | none => raw.map (fun p => ⟨p.1, p.2, 0⟩)

/-- The worker's volumeData after both passes. -/
noncomputable def computeVolumeData (channelData : List ℝ) (sampleRate : ℕ) :
    List VolumePoint :=
  normalizePass (rawVolumePass channelData sampleRate)

end RealFrontEnd

end AudioAnalyzer

section ChunkingLemmas

open PatternGenerator

/-- Master induction for the chunking loop: round-trip, chunk-size bound and
chunk count, for every starting index. -/
theorem buildPatterns_aux (f : String) :
    ∀ (n : ℕ) (xs : List ℚ), xs.length ≤ n → ∀ idx : ℕ,
      ((buildPatterns f idx xs).map RawPattern.strength).flatten = xs ∧
      (∀ p ∈ buildPatterns f idx xs, p.strength.length ≤ 50 ∧ p.strength ≠ []) ∧
      (buildPatterns f idx xs).length = (xs.length + 49) / 50 := by
  intro n
  induction n with
  | zero =>
    intro xs hxs idx
    have hnil : xs = [] := List.length_eq_zero.mp (Nat.le_zero.mp hxs)
    subst hnil
    rw [buildPatterns]
    simp
  | succ n ih =>
    intro xs hxs idx
    by_cases hempty : xs = []
    · subst hempty
      rw [buildPatterns]
      simp
    · have hlen : 1 ≤ xs.length := by
        have := List.length_eq_zero.not.mpr hempty
        omega
      have hdroplen : (xs.drop 50).length ≤ n := by
        simp only [List.length_drop]
        omega
      obtain ⟨ihjoin, ihmem, ihcount⟩ := ih (xs.drop 50) hdroplen (idx + (xs.take 50).length)
      rw [buildPatterns]
      simp only [if_neg hempty, List.map_cons, List.flatten_cons, List.length_cons]
      refine ⟨?_, ?_, ?_⟩
      · rw [ihjoin, List.take_append_drop]
      · intro p hp
        rcases List.mem_cons.mp hp with hhead | htail
        · subst hhead
          constructor
          · simp only [List.length_take]
            omega
          · simp [List.take_eq_nil_iff, hempty]
        · exact ihmem p htail
      · rw [ihcount]
        simp only [List.length_drop]
        omega

/-- Concatenating the chunks' value lists reproduces the encoded sequence. -/
theorem buildPatterns_join (f : String) (idx : ℕ) (xs : List ℚ) :
    ((buildPatterns f idx xs).map RawPattern.strength).flatten = xs :=
  (buildPatterns_aux f xs.length xs le_rfl idx).1

/-- Every chunk holds between 1 and 50 values. -/
theorem buildPatterns_chunk_bounds (f : String) (idx : ℕ) (xs : List ℚ) :
    ∀ p ∈ buildPatterns f idx xs, p.strength.length ≤ 50 ∧ p.strength ≠ [] :=
  (buildPatterns_aux f xs.length xs le_rfl idx).2.1

/-- The number of chunks is ⌈length / 50⌉ (as ℕ arithmetic: (length + 49) / 50). -/
theorem buildPatterns_count (f : String) (idx : ℕ) (xs : List ℚ) :
    (buildPatterns f idx xs).length = (xs.length + 49) / 50 :=
  (buildPatterns_aux f xs.length xs le_rfl idx).2.2

/-- A value found in some chunk comes from the encoded sequence. -/
theorem mem_of_mem_buildPatterns {f : String} {idx : ℕ} {xs : List ℚ}
    {p : RawPattern} {s : ℚ} (hp : p ∈ buildPatterns f idx xs)
    (hs : s ∈ p.strength) : s ∈ xs := by
  have : s ∈ ((buildPatterns f idx xs).map RawPattern.strength).flatten :=
    List.mem_flatten.mpr ⟨p.strength, List.mem_map_of_mem RawPattern.strength hp, hs⟩
  rwa [buildPatterns_join] at this

end ChunkingLemmas

/-- C6: for every intensity sequence fed to the encoder, the chunks' value counts
sum to the input length, concatenating all chunks' values reproduces the input
exactly, every chunk holds at most 50 values, and the chunk count is
⌈totalTicks / 50⌉. -/
theorem c6_chunking (xs : List ℚ) (featureStr : String) :
    (((PatternGenerator.buildPatterns featureStr 0 xs).map
        (fun p => p.strength.length)).sum = xs.length) ∧
    (((PatternGenerator.buildPatterns featureStr 0 xs).map
        PatternGenerator.RawPattern.strength).flatten = xs) ∧
    (∀ p ∈ PatternGenerator.buildPatterns featureStr 0 xs, p.strength.length ≤ 50) ∧
    ((PatternGenerator.buildPatterns featureStr 0 xs).length = (xs.length + 49) / 50) := by
  refine ⟨?_, buildPatterns_join featureStr 0 xs, ?_, buildPatterns_count featureStr 0 xs⟩
  · have := congrArg List.length (buildPatterns_join featureStr 0 xs)
    simpa [List.length_flatten, Function.comp] using this
  · exact fun p hp => (buildPatterns_chunk_bounds featureStr 0 xs p hp).1

/-- C7: resume-slice behaviour of createResumePattern on a chunk with metadata
whose point count matches its value list: at or before the chunk's start the
chunk is returned unchanged; strictly inside, with skip =
⌊(queryTime - start) / tickDuration⌋, a skip past the values yields null (not an
error), and otherwise exactly the suffix values[skip:], with start reset to
queryTime and the duration recomputed from the remaining count. -/
theorem c7_resume_slice (pattern : PatternGenerator.RawPattern)
    (m : PatternGenerator.PatternMeta) (queryTime : ℚ)
    (hm : pattern.meta = some m) (hiv : 0 < m.intervalMs)
    (hpts : m.points = pattern.strength.length) :
    (queryTime ≤ m.startTime →
      PatternGenerator.createResumePattern pattern queryTime = some pattern) ∧
    (m.startTime < queryTime →
      (pattern.strength.length ≤ (PatternGenerator.resumeSkip m queryTime).toNat →
        PatternGenerator.createResumePattern pattern queryTime = none) ∧
      ((PatternGenerator.resumeSkip m queryTime).toNat < pattern.strength.length →
        PatternGenerator.createResumePattern pattern queryTime = some
          { pattern with
            strength :=
              pattern.strength.drop (PatternGenerator.resumeSkip m queryTime).toNat
            timeSec := jsRound3
              (((pattern.strength.drop
                  (PatternGenerator.resumeSkip m queryTime).toNat).length : ℚ) *
                (m.intervalMs / 1000))
            meta := some { m with
                           startTime := queryTime
                           points := (pattern.strength.drop
                               (PatternGenerator.resumeSkip m queryTime).toNat).length
                           isResumeSlice := true } })) := by
  have hskip_nonneg : m.startTime < queryTime → 0 ≤ PatternGenerator.resumeSkip m queryTime := by
    intro hlt
    exact Int.floor_nonneg.mpr
      (div_nonneg (by linarith) (by positivity))
  constructor
  · intro hle
    unfold PatternGenerator.createResumePattern
    rw [hm]
    simp only [if_pos (by linarith : queryTime - m.startTime ≤ 0)]
  · intro hlt
    have h0 := hskip_nonneg hlt
    constructor
    · intro hbig
      unfold PatternGenerator.createResumePattern
      rw [hm]
      simp only [if_neg (by linarith : ¬queryTime - m.startTime ≤ 0)]
      rw [if_pos]
      rw [hpts]
      omega
    · intro hsmall
      unfold PatternGenerator.createResumePattern
      rw [hm]
      simp only [if_neg (by linarith : ¬queryTime - m.startTime ≤ 0)]
      rw [if_neg (by rw [hpts]; omega), if_neg (by simp only [List.length_drop]; omega)]

/-- C7 witness: the chunk [3, 7, 9] starting at 1 s with 100 ms ticks, queried at
1.25 s: skip = 2, the slice keeps [9], starts at 1.25 and lasts 0.1 s. -/
theorem c7_resume_slice_witness :
    (⟨"V:1;F:v;S:100#", [3, 7, 9], 3/10,
        some ⟨1, 13/10, 3, 100, false⟩⟩ : PatternGenerator.RawPattern).meta =
      some ⟨1, 13/10, 3, 100, false⟩ ∧
    (0 : ℚ) < 100 ∧ (3 : ℕ) = 3 ∧
    PatternGenerator.createResumePattern
        ⟨"V:1;F:v;S:100#", [3, 7, 9], 3/10, some ⟨1, 13/10, 3, 100, false⟩⟩ (5/4) =
      some ⟨"V:1;F:v;S:100#", [9], 1/10, some ⟨5/4, 13/10, 1, 100, true⟩⟩ := by
  refine ⟨rfl, by norm_num, rfl, ?_⟩
  have hskip : PatternGenerator.resumeSkip ⟨1, 13/10, 3, 100, false⟩ (5/4) = 2 := by
    norm_num [PatternGenerator.resumeSkip]
  have h := (c7_resume_slice
      ⟨"V:1;F:v;S:100#", [3, 7, 9], 3/10, some ⟨1, 13/10, 3, 100, false⟩⟩
      ⟨1, 13/10, 3, 100, false⟩ (5/4) rfl (by norm_num) rfl).2 (by norm_num)
  have h2 := h.2 (by rw [hskip]; norm_num)
  rw [h2, hskip]
  have ht : (2 : ℤ).toNat = 2 := rfl
  norm_num [ht, jsRound3, jsRound, PatternGenerator.RawPattern.mk.injEq,
    PatternGenerator.PatternMeta.mk.injEq]

/-- C10: a pattern object without _meta metadata (a Function command or an
imported simple pattern) is returned unchanged by the resume-slice operation:
never null, never sliced, never an error. -/
theorem c10_no_meta_unchanged (pattern : PatternGenerator.RawPattern) (queryTime : ℚ)
    (h : pattern.meta = none) :
    PatternGenerator.createResumePattern pattern queryTime = some pattern := by
  unfold PatternGenerator.createResumePattern
  rw [h]

/-- C10 witness: a concrete metadata-free pattern is returned unchanged at an
arbitrary query time. -/
theorem c10_no_meta_unchanged_witness :
    (⟨"V:1;F:v;S:100#", [12, 4], 1/5, none⟩ : PatternGenerator.RawPattern).meta = none ∧
    PatternGenerator.createResumePattern
        ⟨"V:1;F:v;S:100#", [12, 4], 1/5, none⟩ 5 =
      some ⟨"V:1;F:v;S:100#", [12, 4], 1/5, none⟩ :=
  ⟨rfl, c10_no_meta_unchanged ⟨"V:1;F:v;S:100#", [12, 4], 1/5, none⟩ 5 rfl⟩

section OnsetLemmas

open AudioAnalyzer

/-- The gap guard preserves the 50 ms chain invariant: a time is only appended
when the list is empty or it exceeds the last accepted onset by more than 0.05 s. -/
theorem acceptOnset_gap (onsets : List ℚ) (time : ℚ)
    (h : List.Chain' (fun a b => a + 1/20 < b) onsets) :
    List.Chain' (fun a b => a + 1/20 < b) (acceptOnset onsets time) := by
  unfold acceptOnset
  split
  · rename_i heq
    have : onsets = [] := by simpa using heq
    simp [this]
  · rename_i lastOnset heq
    split
    · rw [List.chain'_append]
      refine ⟨h, List.chain'_singleton _, ?_⟩
      intro x hx y hy
      rw [heq] at hx
      simp only [Option.mem_def, Option.some.injEq] at hx
      simp only [List.head?_cons, Option.mem_def, Option.some.injEq] at hy
      subst hx
      subst hy
      linarith
    · exact h

/-- The 50 ms gap invariant is preserved by one iteration of detectOnsets' loop. -/
theorem onsetStep_gap (channelData : List ℝ) (sampleRate frameSize : ℕ)
    (s : OnsetState) (i : ℕ)
    (h : List.Chain' (fun a b => a + 1/20 < b) s.onsets) :
    List.Chain' (fun a b => a + 1/20 < b)
      (onsetStep channelData sampleRate frameSize s i).onsets := by
  unfold onsetStep
  dsimp only
  split
  · split
    · exact acceptOnset_gap _ _ h
    · exact h
  · split
    · exact acceptOnset_gap _ _ h
    · exact h

/-- The gap invariant is preserved by any run of the frame loop. -/
theorem foldl_onsetStep_gap (channelData : List ℝ) (sampleRate frameSize : ℕ) :
    ∀ (idxs : List ℕ) (s : OnsetState),
      List.Chain' (fun a b => a + 1/20 < b) s.onsets →
      List.Chain' (fun a b => a + 1/20 < b)
        ((idxs.foldl (onsetStep channelData sampleRate frameSize) s).onsets) := by
  intro idxs
  induction idxs with
  | nil => intro s h; exact h
  | cons i rest ih =>
    intro s h
    exact ih _ (onsetStep_gap channelData sampleRate frameSize s i h)

end OnsetLemmas

/-- C8: for every sample buffer, the onset sequence returned by the onset
detector is strictly increasing and consecutive onsets are more than 50 ms
apart (every gap exceeds 0.05 s — the guard uses a strict comparison). -/
theorem c8_onset_gaps (channelData : List ℝ) (sampleRate : ℕ) :
    List.Chain' (· < ·) (AudioAnalyzer.detectOnsets channelData sampleRate) ∧
    List.Chain' (fun a b => a + 1/20 < b)
      (AudioAnalyzer.detectOnsets channelData sampleRate) := by
  have hgap : List.Chain' (fun a b => a + 1/20 < b)
      (AudioAnalyzer.detectOnsets channelData sampleRate) := by
    unfold AudioAnalyzer.detectOnsets
    exact foldl_onsetStep_gap _ _ _ _ ⟨0, [], []⟩ List.chain'_nil
  exact ⟨hgap.imp (fun a b hab => by linarith), hgap⟩

section VolumeLemmas

open AudioAnalyzer

/-- Every raw level produced by the first volume pass is a square root, hence
nonnegative. -/
theorem rawVolumePass_nonneg (channelData : List ℝ) (sampleRate : ℕ) :
    ∀ p ∈ rawVolumePass channelData sampleRate, 0 ≤ p.2 := by
  intro p hp
  unfold rawVolumePass at hp
  simp only [List.mem_map] at hp
  obtain ⟨k, _, hk⟩ := hp
  rw [← hk]
  exact Real.sqrt_nonneg _

/-- The normalization pass keeps times and raw levels and only fills in the
normalized field: membership in the output corresponds to membership of the
underlying (time, volume) pair. -/
theorem normalizePass_shape (raw : List (ℚ × ℝ)) :
    ∀ q ∈ normalizePass raw, (q.time, q.volume) ∈ raw := by
  intro q hq
  unfold normalizePass at hq
  split at hq
  · split at hq
    · simp only [List.mem_map] at hq
      obtain ⟨p, hp, rfl⟩ := hq
      exact hp
    · simp only [List.mem_map] at hq
      obtain ⟨p, hp, rfl⟩ := hq
      exact hp
  · simp only [List.mem_map] at hq
    obtain ⟨p, hp, rfl⟩ := hq
    exact hp

end VolumeLemmas

section NormalizeLemmas

open AudioAnalyzer

/-- Every raw (time, volume) pair survives into the normalized list. -/
theorem normalizePass_surj (raw : List (ℚ × ℝ)) :
    ∀ p ∈ raw, ∃ q ∈ normalizePass raw, q.time = p.1 ∧ q.volume = p.2 := by
  intro p hp
  unfold normalizePass
  split
  · split
    · exact ⟨_, List.mem_map_of_mem _ hp, rfl, rfl⟩
    · exact ⟨_, List.mem_map_of_mem _ hp, rfl, rfl⟩
  · exact ⟨_, List.mem_map_of_mem _ hp, rfl, rfl⟩

/-- With nonnegative raw levels, every normalized level lies in [0, 1]. -/
theorem normalizePass_bounds (raw : List (ℚ × ℝ)) (hnn : ∀ p ∈ raw, 0 ≤ p.2) :
    ∀ q ∈ normalizePass raw, 0 ≤ q.normalized ∧ q.normalized ≤ 1 := by
  intro q hq
  unfold normalizePass at hq
  split at hq
  · rename_i maxVolume heq
    split at hq
    · rename_i hpos
      simp only [List.mem_map] at hq
      obtain ⟨p, hp, rfl⟩ := hq
      constructor
      · exact div_nonneg (hnn p hp) hpos.le
      · exact (div_le_one hpos).mpr
          (List.le_maximum_of_mem (List.mem_map_of_mem Prod.snd hp) heq)
    · simp only [List.mem_map] at hq
      obtain ⟨p, hp, rfl⟩ := hq
      norm_num
  · simp only [List.mem_map] at hq
    obtain ⟨p, hp, rfl⟩ := hq
    norm_num

/-- A point carrying a strictly positive level that is maximal among the output
normalizes to exactly 1. -/
theorem normalizePass_max_one (raw : List (ℚ × ℝ))
    (q : VolumePoint) (hq : q ∈ normalizePass raw) (hqpos : 0 < q.volume)
    (hmax : ∀ r ∈ normalizePass raw, r.volume ≤ q.volume) :
    q.normalized = 1 := by
  unfold normalizePass at hq
  split at hq
  · rename_i maxVolume heq
    split at hq
    · rename_i hpos
      simp only [List.mem_map] at hq
      obtain ⟨p, hp, rfl⟩ := hq
      have hle : p.2 ≤ maxVolume :=
        List.le_maximum_of_mem (List.mem_map_of_mem Prod.snd hp) heq
      have hmem : maxVolume ∈ raw.map Prod.snd := List.maximum_mem heq
      simp only [List.mem_map] at hmem
      obtain ⟨p', hp', hp'2⟩ := hmem
      obtain ⟨q', hq', _, hq'v⟩ := normalizePass_surj raw p' hp'
      have hge : maxVolume ≤ p.2 := by
        have h2 := hmax q' hq'
        rw [hq'v, hp'2] at h2
        exact h2
      have hpm : p.2 = maxVolume := le_antisymm hle hge
      show p.2 / maxVolume = 1
      rw [hpm]
      exact div_self (ne_of_gt hpos)
    · rename_i hpos
      simp only [List.mem_map] at hq
      obtain ⟨p, hp, rfl⟩ := hq
      have hle : p.2 ≤ maxVolume :=
        List.le_maximum_of_mem (List.mem_map_of_mem Prod.snd hp) heq
      have hppos : (0:ℝ) < p.2 := hqpos
      linarith [not_lt.mp hpos]
  · rename_i heq
    simp only [List.mem_map] at hq
    obtain ⟨p, hp, rfl⟩ := hq
    have hnil : raw.map Prod.snd = [] := List.maximum_eq_bot.mp heq
    have hraw : raw = [] := List.map_eq_nil.mp hnil
    subst hraw
    simp at hp

/-- When every raw level is exactly 0, every normalized level is 0 (the division
branch is never taken). -/
theorem normalizePass_all_zero (raw : List (ℚ × ℝ)) (hz : ∀ p ∈ raw, p.2 = 0) :
    ∀ q ∈ normalizePass raw, q.normalized = 0 := by
  intro q hq
  unfold normalizePass at hq
  split at hq
  · rename_i maxVolume heq
    split at hq
    · rename_i hpos
      have hmem : maxVolume ∈ raw.map Prod.snd := List.maximum_mem heq
      simp only [List.mem_map] at hmem
      obtain ⟨p', hp', hp'2⟩ := hmem
      rw [hz p' hp'] at hp'2
      rw [← hp'2] at hpos
      norm_num at hpos
    · simp only [List.mem_map] at hq
      obtain ⟨p, hp, rfl⟩ := hq
      rfl
  · simp only [List.mem_map] at hq
    obtain ⟨p, hp, rfl⟩ := hq
    rfl

end NormalizeLemmas

/-- C9: for every sample buffer, every normalized volume level lies in [0, 1];
a point holding the (strictly positive) maximum raw level has normalized level
exactly 1; and when every raw level is 0 every normalized level is 0 — the
division by the maximum is guarded by maxVolume > 0 and never performed on zero. -/
theorem c9_volume_normalization (channelData : List ℝ) (sampleRate : ℕ) :
    (∀ q ∈ AudioAnalyzer.computeVolumeData channelData sampleRate,
      0 ≤ q.normalized ∧ q.normalized ≤ 1) ∧
    (∀ q ∈ AudioAnalyzer.computeVolumeData channelData sampleRate,
      0 < q.volume →
      (∀ r ∈ AudioAnalyzer.computeVolumeData channelData sampleRate,
        r.volume ≤ q.volume) →
      q.normalized = 1) ∧
    ((∀ q ∈ AudioAnalyzer.computeVolumeData channelData sampleRate, q.volume = 0) →
      ∀ q ∈ AudioAnalyzer.computeVolumeData channelData sampleRate,
        q.normalized = 0) := by
  refine ⟨?_, ?_, ?_⟩
  · exact normalizePass_bounds _ (rawVolumePass_nonneg channelData sampleRate)
  · intro q hq hpos hmax
    exact normalizePass_max_one _ q hq hpos hmax
  · intro hz q hq
    refine normalizePass_all_zero _ ?_ q hq
    intro p hp
    obtain ⟨r, hr, hrt, hrv⟩ := normalizePass_surj _ p hp
    rw [← hrv]
    exact hz r hr

section TempoLemmas

open AudioAnalyzer

/-- Unfolding: the doubling loop does nothing once bpm ≥ 80 (or bpm ≤ 0). -/
theorem foldUp_fix {bpm : ℚ} (h : ¬(bpm < 80 ∧ 0 < bpm)) : foldUp bpm = bpm := by
  rw [foldUp]
  exact dif_neg h

/-- Unfolding: one doubling step of the loop. -/
theorem foldUp_step {bpm : ℚ} (h : bpm < 80 ∧ 0 < bpm) : foldUp bpm = foldUp (bpm * 2) := by
  rw [foldUp]
  exact dif_pos h

/-- Unfolding: the halving loop does nothing once bpm ≤ 180. -/
theorem foldDown_fix {bpm : ℚ} (h : ¬180 < bpm) : foldDown bpm = bpm := by
  rw [foldDown]
  exact dif_neg h

/-- Unfolding: one halving step of the loop. -/
theorem foldDown_step {bpm : ℚ} (h : 180 < bpm) : foldDown bpm = foldDown (bpm / 2) := by
  rw [foldDown]
  exact dif_pos h

/-- Every histogram bin of an interval in [0.25, 1] lies in [0.26, 1]
(Math.round(12.5) = 13 at the lower edge). -/
theorem binOf_bounds {interval : ℚ} (h1 : 1/4 ≤ interval) (h2 : interval ≤ 1) :
    13/50 ≤ binOf interval ∧ binOf interval ≤ 1 := by
  unfold binOf jsRound
  have hlo : (13 : ℤ) ≤ ⌊interval / (1/50) + 1/2⌋ := by
    apply Int.le_floor.mpr
    push_cast
    nlinarith
  have hhi : ⌊interval / (1/50) + 1/2⌋ ≤ 50 := by
    have : ⌊interval / (1/50) + 1/2⌋ < 51 := by
      apply Int.floor_lt.mpr
      push_cast
      nlinarith
    omega
  constructor
  · have : (13 : ℚ) ≤ (⌊interval / (1/50) + 1/2⌋ : ℚ) := by exact_mod_cast hlo
    linarith
  · have : ((⌊interval / (1/50) + 1/2⌋ : ℤ) : ℚ) ≤ 50 := by exact_mod_cast hhi
    linarith

/-- histAdd preserves "every key is a bin in range" when the added bin is. -/
theorem histAdd_keys {h : List (ℚ × ℕ)} {bin : ℚ}
    (hk : ∀ e ∈ h, 13/50 ≤ e.1 ∧ e.1 ≤ 1) (hb : 13/50 ≤ bin ∧ bin ≤ 1) :
    ∀ e ∈ histAdd h bin, 13/50 ≤ e.1 ∧ e.1 ≤ 1 := by
  intro e he
  unfold histAdd at he
  split at he
  · simp only [List.mem_map] at he
    obtain ⟨e', he', rfl⟩ := he
    split
    · exact hk e' he'
    · exact hk e' he'
  · rcases List.mem_append.mp he with hmem | hmem
    · exact hk e hmem
    · simp only [List.mem_singleton] at hmem
      subst hmem
      exact hb

/-- Every key of the interval histogram lies in [0.26, 1]. -/
theorem buildHistogram_keys (intervals : List ℚ) :
    ∀ e ∈ buildHistogram intervals, 13/50 ≤ e.1 ∧ e.1 ≤ 1 := by
  unfold buildHistogram
  suffices hgen : ∀ (l : List ℚ) (h0 : List (ℚ × ℕ)),
      (∀ e ∈ h0, 13/50 ≤ e.1 ∧ e.1 ≤ 1) →
      ∀ e ∈ l.foldl
        (fun h interval =>
          if 1/4 ≤ interval ∧ interval ≤ 1 then histAdd h (binOf interval) else h) h0,
        13/50 ≤ e.1 ∧ e.1 ≤ 1 by
    exact hgen intervals [] (by simp)
  intro l
  induction l with
  | nil => intro h0 hk e he; exact hk e he
  | cons i rest ih =>
    intro h0 hk e he
    simp only [List.foldl_cons] at he
    by_cases hi : 1/4 ≤ i ∧ i ≤ 1
    · rw [if_pos hi] at he
      exact ih _ (histAdd_keys hk (binOf_bounds hi.1 hi.2)) e he
    · rw [if_neg hi] at he
      exact ih _ hk e he

/-- The best-bin scan returns 0.5 or one of the histogram's keys; with keys in
[0.26, 1] the result stays in [0.26, 1]. -/
theorem pickBest_bounds {h : List (ℚ × ℕ)}
    (hk : ∀ e ∈ h, 13/50 ≤ e.1 ∧ e.1 ≤ 1) :
    13/50 ≤ pickBest h ∧ pickBest h ≤ 1 := by
  unfold pickBest
  suffices hgen : ∀ (l : List (ℚ × ℕ)) (acc : ℕ × ℚ),
      (∀ e ∈ l, 13/50 ≤ e.1 ∧ e.1 ≤ 1) → 13/50 ≤ acc.2 ∧ acc.2 ≤ 1 →
      13/50 ≤ (l.foldl (fun acc e => if acc.1 < e.2 then (e.2, e.1) else acc) acc).2 ∧
        (l.foldl (fun acc e => if acc.1 < e.2 then (e.2, e.1) else acc) acc).2 ≤ 1 by
    exact hgen h ((0 : ℕ), (1/2 : ℚ)) hk (by norm_num)
  intro l
  induction l with
  | nil => intro acc _ hacc; exact hacc
  | cons e rest ih =>
    intro acc hk0 hacc
    simp only [List.foldl_cons]
    by_cases hcmp : acc.1 < e.2
    · rw [if_pos hcmp]
      exact ih _ (fun x hx => hk0 x (List.mem_cons_of_mem _ hx))
        (hk0 e (List.mem_cons_self _ _))
    · rw [if_neg hcmp]
      exact ih _ (fun x hx => hk0 x (List.mem_cons_of_mem _ hx)) hacc

/-- The doubling loop, applied to 60 / bestInterval with bestInterval in
[0.26, 1]: the result lies in [80, 3000/13]. -/
theorem foldUp_result_bounds {x : ℚ} (h1 : 60 ≤ x) (h2 : x ≤ 3000/13) :
    80 ≤ foldUp x ∧ foldUp x ≤ 3000/13 := by
  by_cases hlt : x < 80
  · rw [foldUp_step ⟨hlt, by linarith⟩, foldUp_fix (by intro h; linarith [h.1])]
    constructor <;> linarith
  · rw [foldUp_fix (fun h => hlt h.1)]
    exact ⟨not_lt.mp hlt, h2⟩

/-- The halving loop on a value in [80, 3000/13]: the result lies in [80, 180]. -/
theorem foldDown_result_bounds {x : ℚ} (h1 : 80 ≤ x) (h2 : x ≤ 3000/13) :
    80 ≤ foldDown x ∧ foldDown x ≤ 180 := by
  by_cases hgt : 180 < x
  · rw [foldDown_step hgt, foldDown_fix (by intro h; linarith)]
    constructor <;> linarith
  · rw [foldDown_fix hgt]
    exact ⟨h1, not_lt.mp hgt⟩

/-- The folded (pre-rounding) BPM always lies in [80, 180]. -/
theorem rawBpm_bounds (onsets : List ℚ) : 80 ≤ rawBpm onsets ∧ rawBpm onsets ≤ 180 := by
  unfold rawBpm
  have hbest := pickBest_bounds
    (buildHistogram_keys ((onsets.zip onsets.tail).map (fun p => p.2 - p.1)))
  set b := pickBest (buildHistogram ((onsets.zip onsets.tail).map (fun p => p.2 - p.1)))
  have hbpos : 0 < b := by linarith [hbest.1]
  have h60 : 60 ≤ 60 / b := by
    rw [le_div_iff hbpos]
    nlinarith [hbest.2]
  have h3000 : 60 / b ≤ 3000/13 := by
    rw [div_le_iff hbpos]
    nlinarith [hbest.1]
  exact foldDown_result_bounds (foldUp_result_bounds h60 h3000).1
    (foldUp_result_bounds h60 h3000).2

end TempoLemmas

/-- Math.round keeps a value of [80, 180] inside [80, 180]. -/
theorem jsRound_bounds_80_180 {q : ℚ} (h1 : 80 ≤ q) (h2 : q ≤ 180) :
    80 ≤ jsRound q ∧ jsRound q ≤ 180 := by
  unfold jsRound
  constructor
  · exact Int.le_floor.mpr (by push_cast; linarith)
  · have : ⌊q + 1/2⌋ < 181 := Int.floor_lt.mpr (by push_cast; linarith)
    omega

/-- C4 (amended): estimateBPM always returns an integer bpm in [80, 180]; with
fewer than 4 onsets it returns bpm 120 and beatInterval 0.5; with at least 4
onsets the returned bpm is Math.round of the folded value rawBpm, while
beatInterval is 60 / rawBpm computed from the value before that rounding, so
beatInterval = 60 / bpm only when the folded value is already an integer. -/
theorem c4_estimate_props (onsets : List ℚ) (duration : ℚ) :
    (80 ≤ (AudioAnalyzer.estimateBPM onsets duration).bpm ∧
      (AudioAnalyzer.estimateBPM onsets duration).bpm ≤ 180) ∧
    (onsets.length < 4 →
      AudioAnalyzer.estimateBPM onsets duration = ⟨120, 1/2⟩) ∧
    (4 ≤ onsets.length →
      AudioAnalyzer.estimateBPM onsets duration =
        ⟨jsRound (AudioAnalyzer.rawBpm onsets), 60 / AudioAnalyzer.rawBpm onsets⟩) := by
  by_cases hlen : onsets.length < 4
  · unfold AudioAnalyzer.estimateBPM
    rw [if_pos hlen]
    refine ⟨by norm_num, fun _ => rfl, fun h4 => absurd h4 (by omega)⟩
  · unfold AudioAnalyzer.estimateBPM
    rw [if_neg hlen]
    have hb := rawBpm_bounds onsets
    have hr := jsRound_bounds_80_180 hb.1 hb.2
    exact ⟨hr, fun hlt => absurd hlt hlen, fun _ => rfl⟩

/-- C4 counterexample: five onsets 0.44 s apart.  The dominant bin is 0.44, the
folded bpm is 1500/11 ≈ 136.36, the returned bpm is its rounding 136, but the
returned beatInterval is 0.44 ≠ 60/136: the claimed identity
beatInterval = 60 / bpm fails. -/
theorem c4_counterexample :
    ¬((AudioAnalyzer.estimateBPM [0, 11/25, 22/25, 33/25, 44/25] 2).beatInterval =
      60 / ((AudioAnalyzer.estimateBPM [0, 11/25, 22/25, 33/25, 44/25] 2).bpm : ℚ)) := by
  have hraw : AudioAnalyzer.rawBpm [0, 11/25, 22/25, 33/25, 44/25] = 1500/11 := by
    unfold AudioAnalyzer.rawBpm
    norm_num [AudioAnalyzer.buildHistogram, AudioAnalyzer.histAdd, AudioAnalyzer.binOf,
      AudioAnalyzer.pickBest, jsRound]
    rw [foldUp_fix (by norm_num), foldDown_fix (by norm_num)]
  have hres : AudioAnalyzer.estimateBPM [0, 11/25, 22/25, 33/25, 44/25] 2 =
      ⟨jsRound (1500/11), 60 / (1500/11)⟩ := by
    unfold AudioAnalyzer.estimateBPM
    rw [if_neg (by norm_num), hraw]
  rw [hres]
  have hround : jsRound ((1500 : ℚ)/11) = 136 := by
    norm_num [jsRound]
  rw [hround]
  norm_num

section SilentLemmas

open PatternGenerator

/-- On a silent track (every normalized level exactly 0) the generator's volume
lookup always answers 0.5: the `|| 0.5` default swallows the zero. -/
theorem volumeAt_silent (volumeData : List VolumeEntry)
    (hz : ∀ v ∈ volumeData, v.normalized = 0) (t : ℚ) :
    volumeAt volumeData t = 1/2 := by
  unfold volumeAt
  split
  · rename_i volIdx heq
    split
    · rename_i p heq2
      have hp : p ∈ volumeData := List.get?_mem heq2
      rw [if_pos (hz p hp)]
    · rfl
  · rfl

/-- On a silent track every per-step strength is one of two values: the on-beat
value computed from the 0.5 default, or the break value. -/
theorem strengthAt_silent (a : AnalysisResult) (st : GenSettings)
    (hz : ∀ v ∈ a.volumeData, v.normalized = 0) (step : ℕ) :
    strengthAt a st step =
      clampQ ((jsRound (st.minIntensity +
          min 1 (1/2 * st.onBeatBoost) * (st.maxIntensity - st.minIntensity)) : ℚ))
        st.minIntensity st.maxIntensity ∨
    strengthAt a st step =
      clampQ ((jsRound (st.minIntensity +
          st.breakIntensity * (st.maxIntensity - st.minIntensity)) : ℚ))
        st.minIntensity st.maxIntensity := by
  unfold strengthAt
  dsimp only
  rw [volumeAt_silent _ hz]
  split
  · left
    rfl
  · right
    rfl

end SilentLemmas

/-- C5 (amended): for a silent track (all normalized volume levels exactly 0)
pattern generation is total and never the intensity floor in general: the zero
level is falsy in JavaScript and is replaced by the 0.5 default, so every
produced value equals clamp(round(min + min(1, 0.5 * onBeatBoost) * (max - min)))
on on-beat ticks or clamp(round(min + breakIntensity * (max - min))) on off-beat
ticks. -/
theorem c5_silent_values (a : PatternGenerator.AnalysisResult)
    (st : PatternGenerator.GenSettings)
    (hz : ∀ v ∈ a.volumeData, v.normalized = 0) :
    ∀ p ∈ (PatternGenerator.generate a st).patterns, ∀ s ∈ p.strength,
      s = clampQ ((jsRound (st.minIntensity +
            min 1 (1/2 * st.onBeatBoost) * (st.maxIntensity - st.minIntensity)) : ℚ))
          st.minIntensity st.maxIntensity ∨
      s = clampQ ((jsRound (st.minIntensity +
            st.breakIntensity * (st.maxIntensity - st.minIntensity)) : ℚ))
          st.minIntensity st.maxIntensity := by
  intro p hp s hs
  have hp' : p ∈ PatternGenerator.buildPatterns
      (PatternGenerator.featureOf st.deviceType) 0
      (PatternGenerator.computeAllStrengths a st) := hp
  have hsx : s ∈ PatternGenerator.computeAllStrengths a st :=
    mem_of_mem_buildPatterns hp' hs
  unfold PatternGenerator.computeAllStrengths at hsx
  simp only [List.mem_map] at hsx
  obtain ⟨step, _, rfl⟩ := hsx
  exact strengthAt_silent a st hz step

/-- A concrete silent analysis result: 0.2 s track, fallback tempo, a single
volume point whose normalized level is 0. -/
def silentAnalysisInput : PatternGenerator.AnalysisResult :=
  ⟨1/5, 120, 1/2, [⟨0, 0⟩]⟩

/-- The generator's default settings (deviceType generic-vibe, minIntensity 0,
maxIntensity 20, onBeatBoost 1.2, breakIntensity 0.1). -/
def silentSettings : PatternGenerator.GenSettings :=
  ⟨"generic-vibe", 0, 20, 6/5, 1/10⟩

/-- C5 counterexample: on the silent track, with default settings, the generated
pattern holds the value 12 (from the 0.5 volume default boosted by 1.2), not
minIntensity = 0 — "every produced intensity equals the floor" is false. -/
theorem c5_counterexample :
    (∀ v ∈ silentAnalysisInput.volumeData, v.normalized = 0) ∧
    ¬(∀ p ∈ (PatternGenerator.generate silentAnalysisInput silentSettings).patterns,
        ∀ s ∈ p.strength, s = silentSettings.minIntensity) := by
  constructor
  · intro v hv
    simp only [silentAnalysisInput, List.mem_singleton] at hv
    subst hv
    rfl
  · intro hall
    have hz0 : ∀ v ∈ silentAnalysisInput.volumeData, v.normalized = 0 := by
      intro v hv
      simp only [silentAnalysisInput, List.mem_singleton] at hv
      subst hv
      rfl
    have hbeats :
        PatternGenerator.mkBeats silentAnalysisInput.beatInterval
          silentAnalysisInput.duration = [0] := by
      unfold PatternGenerator.mkBeats
      rw [if_pos (by norm_num [silentAnalysisInput])]
      have hc : (⌈silentAnalysisInput.duration / silentAnalysisInput.beatInterval⌉).toNat = 1 := by
        have h1 : ⌈silentAnalysisInput.duration / silentAnalysisInput.beatInterval⌉ = 1 := by
          show ⌈(1/5 : ℚ) / (1/2)⌉ = 1
          rw [Int.ceil_eq_iff] <;> norm_num
        rw [h1]
        rfl
      have hr : List.range 1 = [0] := rfl
      rw [hc, hr]
      norm_num [silentAnalysisInput]
    have hstep : PatternGenerator.strengthAt silentAnalysisInput silentSettings 0 = 12 := by
      unfold PatternGenerator.strengthAt
      dsimp only
      rw [volumeAt_silent _ hz0, hbeats]
      norm_num [silentAnalysisInput, silentSettings, clampQ, jsRound,
        List.takeWhile_cons, List.getD]
    have hmem : (12 : ℚ) ∈
        PatternGenerator.computeAllStrengths silentAnalysisInput silentSettings := by
      unfold PatternGenerator.computeAllStrengths
      have h2 : ⌈silentAnalysisInput.duration / (1/10 : ℚ)⌉ = 2 := by
        show ⌈(1/5 : ℚ) / (1/10)⌉ = 2
        rw [Int.ceil_eq_iff] <;> norm_num
      rw [h2]
      refine List.mem_map.mpr ⟨0, ?_, hstep⟩
      decide
    rw [← buildPatterns_join (PatternGenerator.featureOf silentSettings.deviceType) 0
        (PatternGenerator.computeAllStrengths silentAnalysisInput silentSettings)] at hmem
    obtain ⟨l, hl, h12l⟩ := List.mem_flatten.mp hmem
    obtain ⟨p, hp, rfl⟩ := List.mem_map.mp hl
    have hpp : p ∈ (PatternGenerator.generate silentAnalysisInput silentSettings).patterns := hp
    have h120 := hall p hpp 12 h12l
    norm_num [silentSettings] at h120

/-- C5 witness: the amended statement applied to the concrete silent track. -/
theorem c5_silent_values_witness :
    (∀ v ∈ silentAnalysisInput.volumeData, v.normalized = 0) ∧
    (∀ p ∈ (PatternGenerator.generate silentAnalysisInput silentSettings).patterns,
      ∀ s ∈ p.strength,
        s = clampQ ((jsRound (silentSettings.minIntensity +
              min 1 (1/2 * silentSettings.onBeatBoost) *
                (silentSettings.maxIntensity - silentSettings.minIntensity)) : ℚ))
            silentSettings.minIntensity silentSettings.maxIntensity ∨
        s = clampQ ((jsRound (silentSettings.minIntensity +
              silentSettings.breakIntensity *
                (silentSettings.maxIntensity - silentSettings.minIntensity)) : ℚ))
            silentSettings.minIntensity silentSettings.maxIntensity) := by
  have hz : ∀ v ∈ silentAnalysisInput.volumeData, v.normalized = 0 := by
    intro v hv
    simp only [silentAnalysisInput, List.mem_singleton] at hv
    subst hv
    rfl
  exact ⟨hz, c5_silent_values silentAnalysisInput silentSettings hz⟩

section SchedulerFixtures

open PatternGenerator Player

/-- A single 0.3 s chunk starting at 0 with values [1, 2, 3] (100 ms ticks). -/
def c1Raw : RawPattern := ⟨"V:1;F:v;S:100#", [1, 2, 3], 3/10, some ⟨0, 3/10, 3, 100, false⟩⟩

/-- The playable wrapper of c1Raw as the player's script holds it. -/
def c1SP : ScriptPattern := ⟨some 0, some (3/10), some c1Raw⟩

/-- Chunk A: [0, 0.5) with five values 1. -/
def c2RawA : RawPattern :=
  ⟨"V:1;F:v;S:100#", [1, 1, 1, 1, 1], 1/2, some ⟨0, 1/2, 5, 100, false⟩⟩

/-- Chunk B: [0.5, 1.0) with five values 2. -/
def c2RawB : RawPattern :=
  ⟨"V:1;F:v;S:100#", [2, 2, 2, 2, 2], 1/2, some ⟨1/2, 1, 5, 100, false⟩⟩

/-- Playable wrapper of chunk A. -/
def c2A : ScriptPattern := ⟨some 0, some (1/2), some c2RawA⟩

/-- Playable wrapper of chunk B. -/
def c2B : ScriptPattern := ⟨some (1/2), some (1/2), some c2RawB⟩

/-- The two-chunk script. -/
def c2Patterns : List ScriptPattern := [c2A, c2B]

/-- Three consecutive timeupdate times in the last 200 ms of chunk A. -/
def c2Times : List ℚ := [7/20, 2/5, 9/20]

/-- Any time in [0, 0.5) is covered by chunk A, with B as the next chunk. -/
theorem c2_findCovering {t : ℚ} (h0 : 0 ≤ t) (h12 : t < 1/2) :
    findCovering t c2Patterns = some (c2A, some c2B) := by
  unfold c2Patterns findCovering
  rw [if_pos]
  · rfl
  · refine ⟨?_, ?_⟩ <;> norm_num [patStart, patEnd, c2A, c2RawA, h0, h12]

end SchedulerFixtures

/-- The window bounds of the fixtures evaluate definitionally. -/
theorem patStart_c1SP : Player.patStart c1SP = 0 := rfl

/-- End of the single c1 chunk. -/
theorem patEnd_c1SP : Player.patEnd c1SP = 3/10 := rfl

/-- Start of chunk A. -/
theorem patStart_c2A : Player.patStart c2A = 0 := rfl

/-- End of chunk A. -/
theorem patEnd_c2A : Player.patEnd c2A = 1/2 := rfl

/-- Start of chunk B. -/
theorem patStart_c2B : Player.patStart c2B = 1/2 := rfl

/-- Tick at 0.35 s with lastPatternTime = 0: pre-send branch fires, B is sent. -/
theorem c2_tick1 : Player.checkPatternSync true c2Patterns 0 (7/20) = (1/2, some c2B) := by
  unfold Player.checkPatternSync
  rw [c2_findCovering (by norm_num) (by norm_num)]
  dsimp only
  rw [if_pos rfl]
  rw [if_pos (by rw [patEnd_c2A]; norm_num)]
  rw [if_pos (by rw [patStart_c2B]; norm_num)]
  rw [patStart_c2B]

/-- Tick at 0.40 s with lastPatternTime = 0.5 (B already pre-sent): the pre-send
guard blocks, but the fall-through "normal send" sees |0.5 - 0| ≥ 0.05 and
re-sends chunk A in full, resetting lastPatternTime to 0. -/
theorem c2_tick2 : Player.checkPatternSync true c2Patterns (1/2) (2/5) = (0, some c2A) := by
  unfold Player.checkPatternSync
  rw [c2_findCovering (by norm_num) (by norm_num)]
  dsimp only
  rw [if_pos rfl]
  rw [if_pos (by rw [patEnd_c2A]; norm_num)]
  rw [if_neg (by rw [patStart_c2B]; norm_num)]
  rw [if_pos (by
    rw [patStart_c2A, sub_zero, abs_of_pos (show (0:ℚ) < 1/2 by norm_num)]
    norm_num)]
  rw [patStart_c2A]

/-- Tick at 0.45 s with lastPatternTime back at 0: the pre-send branch fires
again and B is sent a second time. -/
theorem c2_tick3 : Player.checkPatternSync true c2Patterns 0 (9/20) = (1/2, some c2B) := by
  unfold Player.checkPatternSync
  rw [c2_findCovering (by norm_num) (by norm_num)]
  dsimp only
  rw [if_pos rfl]
  rw [if_pos (by rw [patEnd_c2A]; norm_num)]
  rw [if_pos (by rw [patStart_c2B]; norm_num)]
  rw [patStart_c2B]

/-- C2: code bug.  Three consecutive time updates all inside the last 200 ms of
chunk A (next chunk B exists, lastPatternTime starts at A's start time): the
scheduler sends B, then re-sends A in full, then sends B again — the next chunk
is sent twice across the run, with an extra send of the current chunk in
between, because the normal-send branch resets the duplicate-send guard. -/
theorem c2_presend_repeats :
    (∀ t ∈ c2Times, Player.patStart c2A ≤ t ∧ t < Player.patEnd c2A ∧
      Player.patEnd c2A - t ≤ 1/5 ∧ 0 < Player.patEnd c2A - t) ∧
    (Player.runTicks c2Patterns 0 c2Times).2 = [c2B, c2A, c2B] := by
  constructor
  · intro t ht
    rw [patStart_c2A, patEnd_c2A]
    unfold c2Times at ht
    simp only [List.mem_cons, List.not_mem_nil, or_false] at ht
    rcases ht with h | h | h
    · rw [h]; norm_num
    · rw [h]; norm_num
    · rw [h]; norm_num
  · show (Player.runTicks c2Patterns 0 [7/20, 2/5, 9/20]).2 = [c2B, c2A, c2B]
    rw [Player.runTicks, c2_tick1]
    dsimp only
    rw [Player.runTicks, c2_tick2]
    dsimp only
    rw [Player.runTicks, c2_tick3]
    dsimp only
    rw [Player.runTicks]
    rfl

/-- C3: code bug.  Feeding the same currentTime (0.35 s, inside the pre-send
window) twice in a row produces two sends: the first call pre-sends B, the
second call — with the bookkeeping the first call wrote — re-sends A in full. -/
theorem c3_not_idempotent :
    Player.checkPatternSync true c2Patterns 0 (7/20) = (1/2, some c2B) ∧
    Player.checkPatternSync true c2Patterns
        (Player.checkPatternSync true c2Patterns 0 (7/20)).1 (7/20) = (0, some c2A) := by
  refine ⟨c2_tick1, ?_⟩
  rw [c2_tick1]
  unfold Player.checkPatternSync
  rw [c2_findCovering (by norm_num) (by norm_num)]
  dsimp only
  rw [if_pos rfl]
  rw [if_pos (by rw [patEnd_c2A]; norm_num)]
  rw [if_neg (by rw [patStart_c2B]; norm_num)]
  rw [if_pos (by
    rw [patStart_c2A, sub_zero, abs_of_pos (show (0:ℚ) < 1/2 by norm_num)]
    norm_num)]
  rw [patStart_c2A]

/-- C1 (amended): while streaming, when the chunk covering currentTime has a
start time at least 50 ms away from lastPatternTime and the pre-send branch does
not intervene, checkPatternSync sends that chunk AS STORED — the pattern object
whose rawCommand still holds the chunk's values from its own start — and records
the chunk's start time.  No resume-slice is computed on the time-update path;
slices are only built when playback starts (sendPatternAtCurrentTime). -/
theorem c1_full_send (patterns : List Player.ScriptPattern)
    (lastPatternTime currentTime : ℚ)
    (current : Player.ScriptPattern) (nextOpt : Option Player.ScriptPattern)
    (hfc : Player.findCovering currentTime patterns = some (current, nextOpt))
    (hpre : ∀ nxt, nextOpt = some nxt →
      (Player.patEnd current - currentTime ≤ 1/5 ∧
        0 < Player.patEnd current - currentTime) →
      lastPatternTime = Player.patStart nxt)
    (hdiff : 1/20 ≤ |lastPatternTime - Player.patStart current|) :
    Player.checkPatternSync true patterns lastPatternTime currentTime =
      (Player.patStart current, some current) := by
  unfold Player.checkPatternSync
  rw [hfc]
  dsimp only
  rw [if_pos rfl]
  cases nextOpt with
  | none =>
    dsimp only
    rw [if_pos hdiff]
  | some nxt =>
    dsimp only
    by_cases hwin : Player.patEnd current - currentTime ≤ 1/5 ∧
        0 < Player.patEnd current - currentTime
    · rw [if_pos hwin, if_neg (not_not_intro (hpre nxt rfl hwin)), if_pos hdiff]
    · rw [if_neg hwin, if_pos hdiff]

/-- C1 witness: the single-chunk script at currentTime = 0.15 with
lastPatternTime = -1 (fresh): the full chunk is sent and its start recorded. -/
theorem c1_full_send_witness :
    Player.findCovering (3/20) [c1SP] = some (c1SP, none) ∧
    (1/20 : ℚ) ≤ |(-1 : ℚ) - Player.patStart c1SP| ∧
    Player.checkPatternSync true [c1SP] (-1) (3/20) =
      (Player.patStart c1SP, some c1SP) := by
  have hfc : Player.findCovering (3/20) [c1SP] = some (c1SP, none) := by
    unfold Player.findCovering
    rw [if_pos]
    · rfl
    · rw [patStart_c1SP, patEnd_c1SP]
      norm_num
  have hdiff : (1/20 : ℚ) ≤ |(-1 : ℚ) - Player.patStart c1SP| := by
    rw [patStart_c1SP, sub_zero, abs_of_nonpos (by norm_num)]
    norm_num
  exact ⟨hfc, hdiff,
    c1_full_send [c1SP] (-1) (3/20) c1SP none hfc (fun nxt h => by cases h) hdiff⟩

/-- C1 counterexample: at currentTime = 0.15 (inside the chunk [0, 0.3) after a
seek, lastPatternTime = -1, so the 50 ms trigger holds), the scheduler sends the
stored pattern whose rawCommand carries the full value list [1, 2, 3]; the
resume-slice for the current time would carry [2, 3].  The claim that the
time-update path sends the resume-slice is false. -/
theorem c1_counterexample :
    (1/20 : ℚ) < |(-1 : ℚ) - Player.patStart c1SP| ∧
    Player.checkPatternSync true [c1SP] (-1) (3/20) = (0, some c1SP) ∧
    c1SP.rawCommand = some c1Raw ∧
    (PatternGenerator.createResumePattern c1Raw (3/20)).map
        PatternGenerator.RawPattern.strength = some [2, 3] ∧
    c1Raw.strength = [1, 2, 3] ∧
    ([1, 2, 3] : List ℚ) ≠ [2, 3] := by
  have hfc : Player.findCovering (3/20) [c1SP] = some (c1SP, none) := by
    unfold Player.findCovering
    rw [if_pos]
    · rfl
    · rw [patStart_c1SP, patEnd_c1SP]
      norm_num
  refine ⟨?_, ?_, rfl, ?_, rfl, by simp⟩
  · rw [patStart_c1SP, sub_zero, abs_of_nonpos (by norm_num)]
    norm_num
  · unfold Player.checkPatternSync
    rw [hfc]
    dsimp only
    rw [if_pos rfl]
    rw [if_pos (by
      rw [patStart_c1SP, sub_zero, abs_of_nonpos (by norm_num)]
      norm_num)]
    rw [patStart_c1SP]
  · have hskip : PatternGenerator.resumeSkip ⟨0, 3/10, 3, 100, false⟩ (3/20) = 1 := by
      norm_num [PatternGenerator.resumeSkip]
    unfold PatternGenerator.createResumePattern c1Raw
    dsimp only
    rw [if_neg (by norm_num)]
    rw [hskip]
    norm_num
